import Mathlib

/-!
Verification of the RSS article deduplication/aggregation engine of the
AI-NewsLetter-Generator repository: a shallow embedding of
`src/actions/rss-article.ts` (author normalization, deduplicating ingestion,
bulk ingestion accounting, windowed retrieval with importance scoring) and of
the newsletter output schema of the newsletter types module, together with
theorems settling the specification's testable properties.
-/

namespace NewsletterGen

/-! ## JavaScript value model

The `author` field arriving from an RSS parser is untyped (`any` in the
source). We model the JavaScript value universe needed to embed
`getAuthorString` faithfully, including truthiness and `Array.prototype.join`
semantics. -/

/-- A JavaScript runtime value, as far as `getAuthorString` can observe it.
Numbers are modelled as integers (the author-normalization logic never
inspects numeric values beyond truthiness). -/
inductive JsValue where
  | null
  | jsUndefined
  | bool (b : Bool)
  | num (n : Int)
  | str (s : String)
  | arr (elems : List JsValue)
  | obj (fields : List (String × JsValue))

/-- JavaScript truthiness: `null`, `undefined`, `false`, `0` and `""` are
falsy; every object (including every array) is truthy. -/
def JsValue.truthy : JsValue → Bool
  | .null => false
  | .jsUndefined => false
  | .bool b => b
  | .num n => n != 0
  | .str s => s ≠ ""
  | .arr _ => true
  | .obj _ => true

/-- Property access `v.name` on an object: the first binding of the field
name, `undefined` when absent (as in JavaScript). -/
def JsValue.getField (fields : List (String × JsValue)) (key : String) : JsValue :=
  match fields.find? (fun p => p.1 == key) with
  | some p => p.2
  | none => .jsUndefined

/-- How `Array.prototype.join` renders one element: `null` and `undefined`
become the empty string, other values are converted by `String(·)` (nested
arrays join their own elements with `","`). -/
def jsJoinElem : JsValue → String
  | .null => ""
  | .jsUndefined => ""
  | .bool b => if b then "true" else "false"
  | .num n => toString n
  | .str s => s
  | .arr elems => String.intercalate "," (elems.attach.map fun e => jsJoinElem e.1)
  | .obj _ => "[object Object]"
decreasing_by
  simp_wf
  have h := List.sizeOf_lt_of_mem e.2
  omega

/-- Embedding of `getAuthorString` (src/actions/rss-article.ts:25).
`if (!author) return null` is the truthiness gate; `typeof author ===
"string"` returns the string; for objects with a truthy `name`, an array
`name` is joined with `", "` and a string `name` is returned; everything else
yields `null`. A bare array has no `name` field (`undefined`, falsy), so it
falls through to `null`, matching the source. -/
def getAuthorString (author : JsValue) : Option String :=
  if author.truthy = false then
    none
  else
    match author with
    | .str s => some s
    | .obj fields =>
      let name := JsValue.getField fields "name"
      if name.truthy then
        match name with
        | .arr elems => some (String.intercalate ", " (elems.map jsJoinElem))
        | .str s => some s
        | _ => none
      else none
    | _ => none

/-- The normalizer contract as amended: absent for every falsy input
(including the empty string), a non-empty string unchanged, an object with a
truthy `name` that is an array joined with `", "` (elements rendered by
JavaScript string conversion), an object whose `name` is a non-empty string
gives that string, and absent otherwise. Written from the contract's case
analysis, independently of `getAuthorString`. -/
def authorContract (v : JsValue) : Option String :=
  match v with
  | .str s => if s = "" then none else some s
  | .obj fields =>
    match JsValue.getField fields "name" with
    | .arr elems => some (String.intercalate ", " (elems.map jsJoinElem))
    | .str s => if s = "" then none else some s
    | _ => none
  | _ => none

/-! ## Article data model

`ArticleCreateData` is the candidate shape handed to the ingestion actions
(`@/lib/rss/types`); `RssArticle` is the stored document shape used by
`createRssArticle`'s `create`/`update` calls. Dates are modelled as integer
timestamps. The Prisma collection has a unique index on `guid`; the store is
modelled as the list of documents in insertion order. -/

structure ArticleCreateData where
  feedId : String
  guid : String
  title : String
  link : String
  content : Option String
  summary : Option String
  pubDate : Int
  author : JsValue
  categories : Option (List String)
  imageUrl : Option String

/-- A stored RSS article document. `feedId` is the feed of first observation
(the primary feed); `author` is already normalized to a string at creation. -/
structure RssArticle where
  feedId : String
  guid : String
  sourceFeedIds : List String
  title : String
  link : String
  content : Option String
  summary : Option String
  pubDate : Int
  author : String
  categories : List String
  imageUrl : Option String
deriving DecidableEq

/-- `prisma.rssArticle.findUnique({ where: { guid } })`: the document with
the given guid, if any (the unique index makes the first match the only
match). -/
def findByGuid (st : List RssArticle) (guid : String) : Option RssArticle :=
  st.find? (fun a => a.guid == guid)

/-- `prisma.rssArticle.update({ where: { guid }, data: { sourceFeedIds:
{ push: feedId } } })`: MongoDB's document-atomic `$push`, appending the
feed id to the matching document's `sourceFeedIds`. -/
def pushSourceFeed (st : List RssArticle) (guid feedId : String) : List RssArticle :=
  st.map fun a =>
    if a.guid == guid then { a with sourceFeedIds := a.sourceFeedIds ++ [feedId] } else a

/-- The document built by the `prisma.rssArticle.create` call of
`createRssArticle` (src/actions/rss-article.ts:81): `sourceFeedIds`
initialized to `[feedId]`, author normalized with the `"Demo user"`
fallback, `categories` defaulted to `[]` when absent. -/
def newArticle (d : ArticleCreateData) : RssArticle :=
  { feedId := d.feedId
    guid := d.guid
    sourceFeedIds := [d.feedId]
    title := d.title
    link := d.link
    content := d.content
    summary := d.summary
    pubDate := d.pubDate
    author := (getAuthorString d.author).getD "Demo user"
    categories := d.categories.getD []
    imageUrl := d.imageUrl }

/-- Embedding of `createRssArticle` (src/actions/rss-article.ts:54) run
without interference: look up by guid; if found and the candidate's feed is
already recorded, re-read and return the document unchanged; if found
otherwise, `$push` the feed id and return the updated document; if absent,
create a fresh document. Returns the store after the call together with the
returned article. -/
def createRssArticle (st : List RssArticle) (d : ArticleCreateData) :
    List RssArticle × RssArticle :=
  match findByGuid st d.guid with
  | some existing =>
    if d.feedId ∈ existing.sourceFeedIds then
      (st, existing)
    else
      (pushSourceFeed st d.guid d.feedId,
       { existing with sourceFeedIds := existing.sourceFeedIds ++ [d.feedId] })
  | none => (st ++ [newArticle d], newArticle d)

/-! ## Windowed retrieval and scoring -/

/-- The `where` clause of `getArticlesByFeedsAndDateRange`
(src/actions/rss-article.ts:141): (`feedId ∈ feedIds` OR `sourceFeedIds`
`hasSome feedIds`) AND `startDate ≤ pubDate ≤ endDate`. -/
def matchesQuery (feedIds : List String) (startDate endDate : Int) (a : RssArticle) : Bool :=
  (feedIds.contains a.feedId || a.sourceFeedIds.any (fun f => feedIds.contains f)) &&
    decide (startDate ≤ a.pubDate) && decide (a.pubDate ≤ endDate)

/-- `ARTICLE_ORDER_BY_DATE_DESC`: most recent first. -/
def dateDesc (a b : RssArticle) : Prop := b.pubDate ≤ a.pubDate

instance : DecidableRel dateDesc := fun a b => by unfold dateDesc; infer_instance

instance : IsTotal RssArticle dateDesc := ⟨fun a b => le_total b.pubDate a.pubDate⟩

instance : IsTrans RssArticle dateDesc :=
  ⟨fun _ _ _ hab hbc => le_trans hbc hab⟩

/-- One element of the action's result: the article spread together with the
computed `sourceCount` annotation. -/
structure ScoredArticle where
  article : RssArticle
  sourceCount : Nat
deriving DecidableEq

/-- The source's default value for the `limit` parameter of
`getArticlesByFeedsAndDateRange` (`limit = 100`). -/
def articleLimitDefault : Nat := 100

/-- Embedding of `getArticlesByFeedsAndDateRange`
(src/actions/rss-article.ts:133): filter by the selection predicate, order
descending by `pubDate` (ties in store-native order, modelled by a concrete
sort), cap at `limit` (default `articleLimitDefault`) after ordering, then
annotate each result with `sourceCount = sourceFeedIds.length`. -/
def getArticlesByFeedsAndDateRange (st : List RssArticle) (feedIds : List String)
    (startDate endDate : Int) (limit : Nat) : List ScoredArticle :=
  (((st.filter (matchesQuery feedIds startDate endDate)).insertionSort dateDesc).take
      limit).map
    fun a => { article := a, sourceCount := a.sourceFeedIds.length }

/-! ## Bulk ingestion

`bulkCreateRssArticles` loops over the candidates, counting each one as
`created` when `createRssArticle` returns, as `skipped` when it throws a
Prisma P2002 (unique-constraint) error, and as `errors` (with a log line
naming the guid) on any other exception. The store interaction of one
candidate can fail for reasons outside the sequential model (races,
infrastructure), so the loop is embedded over an arbitrary per-candidate
attempt function returning the store after the attempt and an optional
error; the non-failing instantiation is `pureAttempt` below. -/

/-- A database error as classified by the catch block:
`P2002` (unique-constraint violation) or anything else. -/
inductive DbError where
  | p2002
  | other (message : String)
deriving DecidableEq

/-- The `{created, skipped, errors}` summary returned by the bulk action. -/
structure BulkOperationResult where
  created : Nat
  skipped : Nat
  errors : Nat
deriving DecidableEq

/-- The observable outcome of one bulk run: final store, the counts, and the
guids logged by `console.error` (in order). -/
structure BulkRun where
  store : List RssArticle
  result : BulkOperationResult
  loggedGuids : List String
deriving DecidableEq

/-- Embedding of `bulkCreateRssArticles` (src/actions/rss-article.ts:103),
generic in the behaviour `attempt` of one `createRssArticle` call: for each
candidate in order, run the attempt; count `created` on success, `skipped`
on a P2002 error, `errors` (logging the guid) on any other error; always
continue with the rest of the batch. -/
def bulkCreateRssArticles
    (attempt : List RssArticle → ArticleCreateData → List RssArticle × Option DbError)
    (st : List RssArticle) : List ArticleCreateData → BulkRun
  | [] => { store := st, result := ⟨0, 0, 0⟩, loggedGuids := [] }
  | d :: rest =>
    match attempt st d with
    | (st', none) =>
      let r := bulkCreateRssArticles attempt st' rest
      { r with result := { r.result with created := r.result.created + 1 } }
    | (st', some .p2002) =>
      let r := bulkCreateRssArticles attempt st' rest
      { r with result := { r.result with skipped := r.result.skipped + 1 } }
    | (st', some (.other _)) =>
      let r := bulkCreateRssArticles attempt st' rest
      { r with
        result := { r.result with errors := r.result.errors + 1 }
        loggedGuids := d.guid :: r.loggedGuids }

/-- The attempt function in the interference-free case: `createRssArticle`
runs sequentially and never throws. -/
def pureAttempt (st : List RssArticle) (d : ArticleCreateData) :
    List RssArticle × Option DbError :=
  ((createRssArticle st d).1, none)

/-- The sequence of per-candidate outcomes along a bulk run (`none` =
returned normally, `some e` = threw `e`), used to characterize the
counters. -/
def bulkOutcomes
    (attempt : List RssArticle → ArticleCreateData → List RssArticle × Option DbError)
    (st : List RssArticle) : List ArticleCreateData → List (Option DbError)
  | [] => []
  | d :: rest =>
    let (st', e) := attempt st d
    e :: bulkOutcomes attempt st' rest

/-! ## Concurrent ingestion model

One `createRssArticle` call performs two store interactions that matter for
interference: the `findUnique` read and then, depending on the snapshot, the
`$push` update, the create (rejected with P2002 by the unique index when the
guid appeared meanwhile), or nothing. Each of those interactions is
document-atomic at the store; the interleaving of two calls is modelled by a
schedule choosing which call takes its next atomic step. -/

/-- Progress of one in-flight `createRssArticle` call: not yet started, read
its `findUnique` snapshot, or finished. -/
inductive MergePhase where
  | start
  | looked (snap : Option RssArticle)
  | done
deriving DecidableEq

/-- An in-flight `createRssArticle` call: its candidate and its progress. -/
structure IngestProc where
  data : ArticleCreateData
  phase : MergePhase

/-- One atomic store interaction of an in-flight call. From `start`, take
the `findUnique` snapshot. From `looked`: if the snapshot held the article
and the feed id is already in its `sourceFeedIds`, finish without writing;
if it held the article otherwise, apply the atomic `$push`; if it was empty,
attempt the create, which the unique index rejects (P2002) when the guid
has appeared in the meantime. A finished call does nothing. -/
def procStep (st : List RssArticle) (p : IngestProc) : List RssArticle × IngestProc :=
  match p.phase with
  | .start => (st, { p with phase := .looked (findByGuid st p.data.guid) })
  | .looked (some existing) =>
    if p.data.feedId ∈ existing.sourceFeedIds then
      (st, { p with phase := .done })
    else
      (pushSourceFeed st p.data.guid p.data.feedId, { p with phase := .done })
  | .looked none =>
    match findByGuid st p.data.guid with
    | some _ => (st, { p with phase := .done })
    | none => (st ++ [newArticle p.data], { p with phase := .done })
  | .done => (st, p)

/-- Run two in-flight calls under a schedule: `true` steps the first call,
`false` the second. -/
def runSchedule (st : List RssArticle) (p1 p2 : IngestProc) :
    List Bool → List RssArticle × IngestProc × IngestProc
  | [] => (st, p1, p2)
  | true :: rest =>
    let (st', p1') := procStep st p1
    runSchedule st' p1' p2 rest
  | false :: rest =>
    let (st', p2') := procStep st p2
    runSchedule st' p1 p2' rest

/-- The six interleavings of two two-step calls. -/
def twoCallSchedules : List (List Bool) :=
  [[true, true, false, false], [true, false, true, false], [true, false, false, true],
   [false, true, true, false], [false, true, false, true], [false, false, true, true]]

/-! ## Newsletter output schema

Embedding of `NewsletterSchema` from the newsletter types module: a zod
object whose `suggestedTitles`, `suggestedSubjectLines` and
`topAnnouncements` are arrays of strings of length exactly 5, `body` a
string, `additionalInfo` an optional string. Field types are enforced by the
embedding's types; the length constraints are the checked content. -/

/-- A candidate `GeneratedNewsletter` value, with the statically-typed field
shapes but arbitrary array lengths. -/
structure NewsletterInput where
  suggestedTitles : List String
  suggestedSubjectLines : List String
  body : String
  topAnnouncements : List String
  additionalInfo : Option String
deriving DecidableEq

/-- One validation issue: an array field whose length differs from the
required exact length. -/
inductive ZodIssue where
  | invalidLength (path : String) (expected : Nat) (actual : Nat)
deriving DecidableEq

/-- The issues `NewsletterSchema` reports for a candidate value: one per
constrained field whose length is not 5. -/
def newsletterIssues (n : NewsletterInput) : List ZodIssue :=
  (if n.suggestedTitles.length = 5 then []
   else [.invalidLength "suggestedTitles" 5 n.suggestedTitles.length]) ++
  (if n.suggestedSubjectLines.length = 5 then []
   else [.invalidLength "suggestedSubjectLines" 5 n.suggestedSubjectLines.length]) ++
  (if n.topAnnouncements.length = 5 then []
   else [.invalidLength "topAnnouncements" 5 n.topAnnouncements.length])

/-- `NewsletterSchema.safeParse`: succeeds with the value unchanged exactly
when no field violates its length constraint; otherwise fails with the list
of issues (a `ValidationError`). -/
def NewsletterSchema.safeParse (n : NewsletterInput) : Except (List ZodIssue) NewsletterInput :=
  match newsletterIssues n with
  | [] => .ok n
  | issues => .error issues

/-- Modelled from the spec: the save action for a `GeneratedNewsletter`
(spec §4.5 `saveGeneratedNewsletter`) is not among the provided source
files — only `NewsletterSchema` is. Per the spec, saving validates the
object against the schema at save time and fails with the `ValidationError`
before anything reaches persistent storage; on success the validated object
is handed to the store unchanged. -/
def saveGeneratedNewsletter (store : List NewsletterInput) (n : NewsletterInput) :
    Except (List ZodIssue) (List NewsletterInput) :=
  match NewsletterSchema.safeParse n with
  | .ok v => .ok (store ++ [v])
  | .error e => .error e

/-! ## Helper lemmas -/

/-- Looking up a guid in a singleton store. -/
theorem findByGuid_singleton (a : RssArticle) (g : String) :
    findByGuid [a] g = if a.guid == g then some a else none := by
  cases h : a.guid == g <;> simp [findByGuid, List.find?, h]

/-- `$push` commutes with guid lookup: the looked-up document is the pushed
version of the one found before. -/
theorem findByGuid_pushSourceFeed (st : List RssArticle) (g f : String) :
    findByGuid (pushSourceFeed st g f) g =
      (findByGuid st g).map fun a =>
        { a with sourceFeedIds := a.sourceFeedIds ++ [f] } := by
  have hcomp : ((fun a : RssArticle => a.guid == g) ∘ fun a =>
      if (a.guid == g) = true then { a with sourceFeedIds := a.sourceFeedIds ++ [f] } else a)
      = fun a : RssArticle => a.guid == g := by
    funext a
    by_cases h : a.guid = g <;> simp [h]
  unfold findByGuid pushSourceFeed
  rw [List.find?_map, hcomp]
  cases hfind : List.find? (fun a : RssArticle => a.guid == g) st with
  | none => rfl
  | some a =>
    have hp := List.find?_some hfind
    have hp' : a.guid = g := by simpa using hp
    simp [hp']

/-! ## Claim C6 — author normalization case analysis (corrected) -/

/-- C6 (counterexample): the claim fails as stated on two inputs. The empty
string is a string input but `getAuthorString` returns absent for it
(JavaScript falsiness), and an object whose `name` is an array of
non-strings is not "a sequence of strings" — the claim then demands absent —
yet the source joins it into `"1, 2"`. -/
theorem claim_C6_counterexample :
    getAuthorString (JsValue.str "") = none ∧
    getAuthorString (JsValue.obj [("name", JsValue.arr [JsValue.num 1, JsValue.num 2])])
      = some "1, 2" := by
  constructor
  · rfl
  · simp [getAuthorString, JsValue.truthy, JsValue.getField, List.find?, jsJoinElem]
    rfl

/-- C6 (amended): `getAuthorString` is total and side-effect free, and for
every input agrees with the amended case analysis `authorContract`: absent
for every falsy input (null/absent, `false`, `0` and the empty string); a
non-empty string unchanged; for an object with a truthy `name` field, an
array `name` joined with `", "` under JavaScript element conversion and a
non-empty string `name` returned as is; absent for any other shape. -/
theorem claim_C6_author_normalization_amended :
    ∀ v : JsValue, getAuthorString v = authorContract v := by
  intro v
  match v with
  | .null => rfl
  | .jsUndefined => rfl
  | .bool b => cases b <;> rfl
  | .num n =>
    by_cases h : n = 0 <;> simp [getAuthorString, authorContract, JsValue.truthy, h]
  | .str s =>
    by_cases h : s = "" <;> simp [getAuthorString, authorContract, JsValue.truthy, h]
  | .arr l => rfl
  | .obj fields =>
    cases hname : JsValue.getField fields "name" with
    | null => simp [getAuthorString, authorContract, JsValue.truthy, hname]
    | jsUndefined => simp [getAuthorString, authorContract, JsValue.truthy, hname]
    | bool b =>
      cases b <;> simp [getAuthorString, authorContract, JsValue.truthy, hname]
    | num n =>
      by_cases h : n = 0 <;>
        simp [getAuthorString, authorContract, JsValue.truthy, hname, h]
    | str s =>
      by_cases h : s = "" <;>
        simp [getAuthorString, authorContract, JsValue.truthy, hname, h]
    | arr elems => simp [getAuthorString, authorContract, JsValue.truthy, hname]
    | obj fs => simp [getAuthorString, authorContract, JsValue.truthy, hname]

/-! ## Claim C1 — set-union growth with content preservation -/

/-- C1: ingesting a candidate with a fresh guid through feed A and then a
candidate with the same guid through a different feed B yields a store
extending the old one by a single article whose `sourceFeedIds` is
`[A, B]` (first-occurrence order); every content field of that article
comes from the first observation only (title, link, content, summary,
pubDate, normalized author, categories, imageUrl), and the merge changed
nothing but `sourceFeedIds` relative to the first observation's stored
article. -/
theorem claim_C1_set_union_growth (st : List RssArticle) (d1 d2 : ArticleCreateData)
    (hfresh : findByGuid st d1.guid = none)
    (hg : d2.guid = d1.guid) (hne : d2.feedId ≠ d1.feedId) :
    let r1 := createRssArticle st d1
    let r2 := createRssArticle r1.1 d2
    r2.1 = st ++ [r2.2] ∧
    r2.2.sourceFeedIds = [d1.feedId, d2.feedId] ∧
    r2.2.title = d1.title ∧ r2.2.link = d1.link ∧ r2.2.content = d1.content ∧
    r2.2.summary = d1.summary ∧ r2.2.pubDate = d1.pubDate ∧
    r2.2.author = (getAuthorString d1.author).getD "Demo user" ∧
    r2.2.categories = d1.categories.getD [] ∧ r2.2.imageUrl = d1.imageUrl ∧
    r2.2 = { r1.2 with sourceFeedIds := r2.2.sourceFeedIds } ∧
    r2.1.filter (fun b => b.guid == d1.guid) = [r2.2] := by
  have hforall : ∀ b ∈ st, ¬(b.guid == d1.guid) = true := List.find?_eq_none.mp hfresh
  have h1 : createRssArticle st d1 = (st ++ [newArticle d1], newArticle d1) := by
    unfold createRssArticle
    rw [hfresh]
  have hfind1 : findByGuid (st ++ [newArticle d1]) d2.guid = some (newArticle d1) := by
    unfold findByGuid at hfresh ⊢
    rw [hg, List.find?_append, hfresh]
    simp [newArticle]
  have hmem : d2.feedId ∉ (newArticle d1).sourceFeedIds := by
    simp [newArticle, hne]
  have hpush : pushSourceFeed (st ++ [newArticle d1]) d2.guid d2.feedId
      = st ++ [{ newArticle d1 with sourceFeedIds := [d1.feedId, d2.feedId] }] := by
    unfold pushSourceFeed
    rw [List.map_append]
    congr 1
    · calc st.map (fun a => if (a.guid == d2.guid) = true
              then { a with sourceFeedIds := a.sourceFeedIds ++ [d2.feedId] } else a)
          = st.map id := by
            apply List.map_congr_left
            intro b hb
            rw [if_neg]
            · rfl
            · rw [hg]
              exact hforall b hb
        _ = st := List.map_id st
    · simp [newArticle, hg]
  have h2 : createRssArticle (st ++ [newArticle d1]) d2 =
      (st ++ [{ newArticle d1 with sourceFeedIds := [d1.feedId, d2.feedId] }],
       { newArticle d1 with sourceFeedIds := [d1.feedId, d2.feedId] }) := by
    unfold createRssArticle
    rw [hfind1]
    dsimp only
    rw [if_neg hmem, hpush]
    rfl
  dsimp only
  rw [h1]
  dsimp only
  rw [h2]
  refine ⟨rfl, rfl, rfl, rfl, rfl, rfl, rfl, rfl, rfl, rfl, rfl, ?_⟩
  rw [List.filter_append]
  have hnil : st.filter (fun b => b.guid == d1.guid) = [] :=
    List.filter_eq_nil_iff.mpr hforall
  rw [hnil]
  simp [newArticle]

/-- Concrete first candidate used to witness C1 and C2. -/
def sampleCand1 : ArticleCreateData :=
  { feedId := "feedA", guid := "guid-1", title := "X", link := "x.html",
    content := none, summary := some "s", pubDate := 10,
    author := JsValue.str "Ann", categories := some ["tech"], imageUrl := none }

/-- Concrete second candidate (same guid, different feed, different
content) used to witness C1. -/
def sampleCand2 : ArticleCreateData :=
  { feedId := "feedB", guid := "guid-1", title := "Y", link := "y.html",
    content := some "c2", summary := none, pubDate := 20,
    author := JsValue.null, categories := none, imageUrl := some "i.png" }

/-- C1 instantiated on an empty store with concrete candidates. -/
theorem claim_C1_witness :
    findByGuid [] sampleCand1.guid = none ∧
    sampleCand2.guid = sampleCand1.guid ∧
    sampleCand2.feedId ≠ sampleCand1.feedId ∧
    (createRssArticle (createRssArticle [] sampleCand1).1 sampleCand2).2.sourceFeedIds
      = [sampleCand1.feedId, sampleCand2.feedId] ∧
    (createRssArticle (createRssArticle [] sampleCand1).1 sampleCand2).2.title
      = sampleCand1.title := by
  refine ⟨rfl, rfl, by decide, ?_, ?_⟩
  · exact (claim_C1_set_union_growth [] sampleCand1 sampleCand2 rfl rfl (by decide)).2.1
  · exact (claim_C1_set_union_growth [] sampleCand1 sampleCand2 rfl rfl (by decide)).2.2.1

/-! ## Claim C2 — idempotent re-observation -/

/-- C2: if the store already holds an article for the candidate's guid and
the candidate's feed id is already among its `sourceFeedIds`, the call
returns the existing article and leaves the store untouched; consequently
ingesting the same candidate twice makes the second call a no-op (same
store, same returned article — in particular `sourceFeedIds` is unchanged
in length and content). -/
theorem claim_C2_idempotent_reobservation :
    (∀ (st : List RssArticle) (d : ArticleCreateData) (ex : RssArticle),
      findByGuid st d.guid = some ex → d.feedId ∈ ex.sourceFeedIds →
      createRssArticle st d = (st, ex)) ∧
    (∀ (st : List RssArticle) (d : ArticleCreateData),
      createRssArticle (createRssArticle st d).1 d = createRssArticle st d) := by
  constructor
  · intro st d ex hfind hmem
    unfold createRssArticle
    rw [hfind]
    dsimp only
    rw [if_pos hmem]
  · intro st d
    rcases hfind : findByGuid st d.guid with _ | ex
    · have h1 : createRssArticle st d = (st ++ [newArticle d], newArticle d) := by
        unfold createRssArticle
        rw [hfind]
      rw [h1]
      dsimp only
      have hfind1 : findByGuid (st ++ [newArticle d]) d.guid = some (newArticle d) := by
        unfold findByGuid at hfind ⊢
        rw [List.find?_append, hfind]
        simp [newArticle]
      unfold createRssArticle
      rw [hfind1]
      dsimp only
      rw [if_pos (show d.feedId ∈ (newArticle d).sourceFeedIds by simp [newArticle])]
    · by_cases hmem : d.feedId ∈ ex.sourceFeedIds
      · have h1 : createRssArticle st d = (st, ex) := by
          unfold createRssArticle
          rw [hfind]
          dsimp only
          rw [if_pos hmem]
        rw [h1]
        exact h1
      · have h1 : createRssArticle st d =
            (pushSourceFeed st d.guid d.feedId,
             { ex with sourceFeedIds := ex.sourceFeedIds ++ [d.feedId] }) := by
          unfold createRssArticle
          rw [hfind]
          dsimp only
          rw [if_neg hmem]
        rw [h1]
        dsimp only
        have hfind1 : findByGuid (pushSourceFeed st d.guid d.feedId) d.guid
            = some { ex with sourceFeedIds := ex.sourceFeedIds ++ [d.feedId] } := by
          rw [findByGuid_pushSourceFeed, hfind]
          rfl
        unfold createRssArticle
        rw [hfind1]
        dsimp only
        rw [if_pos (show d.feedId ∈ ex.sourceFeedIds ++ [d.feedId] by simp)]

/-- C2 instantiated: re-ingesting `sampleCand1` against the store produced
by its own first ingestion returns the stored article and changes nothing;
the direct part applies to the store `[newArticle sampleCand1]`. -/
theorem claim_C2_witness :
    (findByGuid [newArticle sampleCand1] sampleCand1.guid = some (newArticle sampleCand1) ∧
      sampleCand1.feedId ∈ (newArticle sampleCand1).sourceFeedIds ∧
      createRssArticle [newArticle sampleCand1] sampleCand1
        = ([newArticle sampleCand1], newArticle sampleCand1)) ∧
    createRssArticle (createRssArticle [] sampleCand1).1 sampleCand1
      = createRssArticle [] sampleCand1 := by
  refine ⟨⟨rfl, by decide, ?_⟩, ?_⟩
  · exact claim_C2_idempotent_reobservation.1 [newArticle sampleCand1] sampleCand1
      (newArticle sampleCand1) rfl (by decide)
  · exact claim_C2_idempotent_reobservation.2 [] sampleCand1

/-! ## Bulk accounting and classification -/

/-- The counters and the log of a bulk run, characterized by the sequence of
per-candidate outcomes: every candidate produces exactly one outcome,
`created` counts the normal returns, `skipped` the P2002 errors, `errors`
the remaining failures, and the log holds exactly the guids of the
candidates that failed with a non-P2002 error, in order. -/
theorem bulk_characterization
    (attempt : List RssArticle → ArticleCreateData → List RssArticle × Option DbError) :
    ∀ (l : List ArticleCreateData) (st : List RssArticle),
      (bulkOutcomes attempt st l).length = l.length ∧
      (bulkCreateRssArticles attempt st l).result.created
        = (bulkOutcomes attempt st l).countP (fun e => e.isNone) ∧
      (bulkCreateRssArticles attempt st l).result.skipped
        = (bulkOutcomes attempt st l).countP (fun e => decide (e = some DbError.p2002)) ∧
      (bulkCreateRssArticles attempt st l).result.errors
        = (bulkOutcomes attempt st l).countP
            (fun e => match e with | some (DbError.other _) => true | _ => false) ∧
      (bulkCreateRssArticles attempt st l).loggedGuids
        = (l.zip (bulkOutcomes attempt st l)).filterMap
            (fun p => match p.2 with | some (DbError.other _) => some p.1.guid | _ => none) := by
  intro l
  induction l with
  | nil => intro st; simp [bulkCreateRssArticles, bulkOutcomes]
  | cons d rest ih =>
    intro st
    rcases hatt : attempt st d with ⟨st', e⟩
    obtain ⟨ihlen, ihc, ihs, ihe, ihg⟩ := ih st'
    rcases e with _ | de
    · simp [bulkCreateRssArticles, bulkOutcomes, hatt, List.countP_cons, ihlen, ihc, ihs,
        ihe, ihg]
    · rcases de with _ | msg
      · simp [bulkCreateRssArticles, bulkOutcomes, hatt, List.countP_cons, ihlen, ihc,
          ihs, ihe, ihg]
      · simp [bulkCreateRssArticles, bulkOutcomes, hatt, List.countP_cons, ihlen, ihc,
          ihs, ihe, ihg]

/-- C4: for every per-candidate behaviour of the store, every initial store
and every batch, the three counters of `bulkCreateRssArticles` sum to the
number of candidates — each candidate increments exactly one counter. -/
theorem claim_C4_batch_accounting :
    ∀ (attempt : List RssArticle → ArticleCreateData → List RssArticle × Option DbError)
      (st : List RssArticle) (l : List ArticleCreateData),
      (bulkCreateRssArticles attempt st l).result.created
        + (bulkCreateRssArticles attempt st l).result.skipped
        + (bulkCreateRssArticles attempt st l).result.errors = l.length := by
  intro attempt st l
  induction l generalizing st with
  | nil => rfl
  | cons d rest ih =>
    rcases hatt : attempt st d with ⟨st', e⟩
    rcases e with _ | de
    · have := ih st'
      simp only [bulkCreateRssArticles, hatt, List.length_cons]
      omega
    · rcases de with _ | msg
      · have := ih st'
        simp only [bulkCreateRssArticles, hatt, List.length_cons]
        omega
      · have := ih st'
        simp only [bulkCreateRssArticles, hatt, List.length_cons]
        omega

/-- C5: classification and continuation in `bulkCreateRssArticles` — for any
behaviour of the store, a batch of `N` candidates produces exactly `N`
outcomes (a failure never aborts the rest of the batch); `skipped` counts
exactly the candidates whose create threw Prisma P2002, `errors` counts
exactly the other failures, and each such failure is logged with the
offending candidate's guid (and nothing else is logged). -/
theorem claim_C5_batch_failure_classification :
    ∀ (attempt : List RssArticle → ArticleCreateData → List RssArticle × Option DbError)
      (st : List RssArticle) (l : List ArticleCreateData),
      (bulkOutcomes attempt st l).length = l.length ∧
      (bulkCreateRssArticles attempt st l).result.skipped
        = (bulkOutcomes attempt st l).countP (fun e => decide (e = some DbError.p2002)) ∧
      (bulkCreateRssArticles attempt st l).result.errors
        = (bulkOutcomes attempt st l).countP
            (fun e => match e with | some (DbError.other _) => true | _ => false) ∧
      (bulkCreateRssArticles attempt st l).loggedGuids
        = (l.zip (bulkOutcomes attempt st l)).filterMap
            (fun p => match p.2 with | some (DbError.other _) => some p.1.guid | _ => none) := by
  intro attempt st l
  obtain ⟨hlen, _, hs, he, hg⟩ := bulk_characterization attempt l st
  exact ⟨hlen, hs, he, hg⟩

/-- C10: with the sequential, non-throwing `createRssArticle` behaviour,
every candidate is counted as `created` — including candidates whose guid
already exists (idempotent re-observation and merge paths) — so a batch of
`N` candidates reports `created = N, skipped = 0, errors = 0`; and in
general `skipped` is incremented exactly for the candidates whose call threw
Prisma P2002. -/
theorem claim_C10_duplicates_count_as_created :
    (∀ (st : List RssArticle) (l : List ArticleCreateData),
      (bulkCreateRssArticles pureAttempt st l).result
        = { created := l.length, skipped := 0, errors := 0 }) ∧
    (∀ (attempt : List RssArticle → ArticleCreateData → List RssArticle × Option DbError)
      (st : List RssArticle) (l : List ArticleCreateData),
      (bulkCreateRssArticles attempt st l).result.skipped
        = (bulkOutcomes attempt st l).countP (fun e => decide (e = some DbError.p2002))) := by
  constructor
  · intro st l
    induction l generalizing st with
    | nil => rfl
    | cons d rest ih =>
      simp only [bulkCreateRssArticles, pureAttempt]
      rw [ih]
      rfl
  · intro attempt st l
    exact (bulk_characterization attempt l st).2.2.1

/-! ## Claim C8 — retrieval ordering, truncation and annotation -/

/-- C8: the result of `getArticlesByFeedsAndDateRange` has at most `limit`
elements; it is ordered descending by `pubDate`; every element is a stored
article satisfying the selection predicate, annotated with `sourceCount`
computed as the length of its `sourceFeedIds`; and truncation keeps the most
recent matches — any matching stored article missing from the result is no
more recent than every returned one. -/
theorem claim_C8_ordering_truncation_scoring :
    ∀ (st : List RssArticle) (feedIds : List String) (s e : Int) (limit : Nat),
      (getArticlesByFeedsAndDateRange st feedIds s e limit).length ≤ limit ∧
      List.Pairwise (fun x y : ScoredArticle => y.article.pubDate ≤ x.article.pubDate)
        (getArticlesByFeedsAndDateRange st feedIds s e limit) ∧
      (∀ x ∈ getArticlesByFeedsAndDateRange st feedIds s e limit,
        x.article ∈ st ∧ matchesQuery feedIds s e x.article = true ∧
          x.sourceCount = x.article.sourceFeedIds.length) ∧
      (∀ a ∈ st, matchesQuery feedIds s e a = true →
        (∀ x ∈ getArticlesByFeedsAndDateRange st feedIds s e limit, x.article ≠ a) →
        ∀ x ∈ getArticlesByFeedsAndDateRange st feedIds s e limit,
          a.pubDate ≤ x.article.pubDate) := by
  intro st feedIds s e limit
  have hsort : List.Sorted dateDesc
      ((st.filter (matchesQuery feedIds s e)).insertionSort dateDesc) :=
    List.sorted_insertionSort dateDesc _
  have hperm : List.Perm ((st.filter (matchesQuery feedIds s e)).insertionSort dateDesc)
      (st.filter (matchesQuery feedIds s e)) :=
    List.perm_insertionSort dateDesc _
  refine ⟨?_, ?_, ?_, ?_⟩
  · rw [getArticlesByFeedsAndDateRange, List.length_map]
    exact List.length_take_le _ _
  · rw [getArticlesByFeedsAndDateRange, List.pairwise_map]
    exact List.Pairwise.sublist (List.take_sublist _ _) hsort
  · intro x hx
    rw [getArticlesByFeedsAndDateRange] at hx
    rcases List.mem_map.mp hx with ⟨b, hb, rfl⟩
    have hbs : b ∈ (st.filter (matchesQuery feedIds s e)).insertionSort dateDesc :=
      List.mem_of_mem_take hb
    have hbf := List.mem_filter.mp (hperm.mem_iff.mp hbs)
    exact ⟨hbf.1, hbf.2, rfl⟩
  · intro a ha hmatch hnot x hx
    have hafl : a ∈ st.filter (matchesQuery feedIds s e) :=
      List.mem_filter.mpr ⟨ha, hmatch⟩
    have hasorted : a ∈ (st.filter (matchesQuery feedIds s e)).insertionSort dateDesc :=
      hperm.mem_iff.mpr hafl
    have hnottake : a ∉
        ((st.filter (matchesQuery feedIds s e)).insertionSort dateDesc).take limit := by
      intro hin
      refine hnot { article := a, sourceCount := a.sourceFeedIds.length } ?_ rfl
      rw [getArticlesByFeedsAndDateRange]
      exact List.mem_map_of_mem _ hin
    have hsplit : a ∈
        ((st.filter (matchesQuery feedIds s e)).insertionSort dateDesc).take limit ++
        ((st.filter (matchesQuery feedIds s e)).insertionSort dateDesc).drop limit := by
      rw [List.take_append_drop]
      exact hasorted
    have hdrop : a ∈
        ((st.filter (matchesQuery feedIds s e)).insertionSort dateDesc).drop limit := by
      rcases List.mem_append.mp hsplit with h | h
      · exact absurd h hnottake
      · exact h
    rw [getArticlesByFeedsAndDateRange] at hx
    rcases List.mem_map.mp hx with ⟨b, hb, rfl⟩
    exact hsort.rel_of_mem_take_of_mem_drop hb hdrop

/-- C8 instantiated on a one-article store with `limit = 1`. -/
theorem claim_C8_witness :
    (getArticlesByFeedsAndDateRange [newArticle sampleCand1] ["feedA"] 0 100 1).length ≤ 1 ∧
    (∀ x ∈ getArticlesByFeedsAndDateRange [newArticle sampleCand1] ["feedA"] 0 100 1,
      x.sourceCount = x.article.sourceFeedIds.length) :=
  ⟨(claim_C8_ordering_truncation_scoring [newArticle sampleCand1] ["feedA"] 0 100 1).1,
   fun x hx =>
    ((claim_C8_ordering_truncation_scoring [newArticle sampleCand1] ["feedA"] 0 100 1).2.2.1
        x hx).2.2⟩

/-! ## Claim C3 — window correctness (corrected) -/

/-- One of 101 identical-looking stored articles distinguished by `pubDate`
and guid, all matching feed `"f1"` and window `[0, 200]`. -/
def c3Article (i : Nat) : RssArticle :=
  { feedId := "f1", guid := toString i, sourceFeedIds := ["f1"], title := "t", link := "l",
    content := none, summary := none, pubDate := (i : Int), author := "a",
    categories := [], imageUrl := none }

/-- A store of 101 articles that all match the same feed and window — one
more than the action's default `limit` of 100. -/
def c3Store : List RssArticle := (List.range 101).map c3Article

/-- C3 (counterexample): with 101 stored articles all matching the
selection predicate and the source's default `limit = 100`, the oldest
matching article is a stored article that satisfies the predicate yet is
absent from the result — the action does not return exactly the matching
articles. -/
theorem claim_C3_counterexample :
    c3Article 0 ∈ c3Store ∧ matchesQuery ["f1"] 0 200 (c3Article 0) = true ∧
    ∀ x ∈ getArticlesByFeedsAndDateRange c3Store ["f1"] 0 200 articleLimitDefault,
      x.article ≠ c3Article 0 := by
  refine ⟨by decide, by decide, by decide⟩

/-- C3 (amended): whenever at most `limit` stored articles satisfy the
selection predicate (in particular whenever the store is not larger than
`limit`), the result of `getArticlesByFeedsAndDateRange` consists of exactly
the stored articles whose `pubDate` lies in `[startDate, endDate]` inclusive
and whose primary `feedId` is in `feedIds` or whose `sourceFeedIds` meets
`feedIds`; articles outside the window or with no feed overlap are always
excluded. -/
theorem claim_C3_window_correctness_amended (st : List RssArticle) (feedIds : List String)
    (s e : Int) (limit : Nat)
    (hcap : (st.filter (matchesQuery feedIds s e)).length ≤ limit) :
    ∀ a : RssArticle,
      (∃ x ∈ getArticlesByFeedsAndDateRange st feedIds s e limit, x.article = a) ↔
        (a ∈ st ∧ matchesQuery feedIds s e a = true) := by
  intro a
  have hperm : List.Perm ((st.filter (matchesQuery feedIds s e)).insertionSort dateDesc)
      (st.filter (matchesQuery feedIds s e)) :=
    List.perm_insertionSort dateDesc _
  have htake : ((st.filter (matchesQuery feedIds s e)).insertionSort dateDesc).take limit
      = (st.filter (matchesQuery feedIds s e)).insertionSort dateDesc :=
    List.take_of_length_le (by rw [hperm.length_eq]; exact hcap)
  constructor
  · rintro ⟨x, hx, hxa⟩
    rw [getArticlesByFeedsAndDateRange] at hx
    rcases List.mem_map.mp hx with ⟨b, hb, rfl⟩
    cases hxa
    have hbs : b ∈ (st.filter (matchesQuery feedIds s e)).insertionSort dateDesc :=
      List.mem_of_mem_take hb
    have hbf := List.mem_filter.mp (hperm.mem_iff.mp hbs)
    exact ⟨hbf.1, hbf.2⟩
  · rintro ⟨ha, hm⟩
    have hafl : a ∈ st.filter (matchesQuery feedIds s e) :=
      List.mem_filter.mpr ⟨ha, hm⟩
    have hasorted : a ∈ (st.filter (matchesQuery feedIds s e)).insertionSort dateDesc :=
      hperm.mem_iff.mpr hafl
    refine ⟨{ article := a, sourceCount := a.sourceFeedIds.length }, ?_, rfl⟩
    rw [getArticlesByFeedsAndDateRange, htake]
    exact List.mem_map_of_mem _ hasorted

/-- C3 (amended) instantiated on a one-article store. -/
theorem claim_C3_witness :
    ([newArticle sampleCand1].filter (matchesQuery ["feedA"] 0 100)).length ≤ 100 ∧
    ((∃ x ∈ getArticlesByFeedsAndDateRange [newArticle sampleCand1] ["feedA"] 0 100 100,
        x.article = newArticle sampleCand1) ↔
      (newArticle sampleCand1 ∈ [newArticle sampleCand1] ∧
        matchesQuery ["feedA"] 0 100 (newArticle sampleCand1) = true)) :=
  ⟨by decide,
   claim_C3_window_correctness_amended [newArticle sampleCand1] ["feedA"] 0 100 100
     (by decide) (newArticle sampleCand1)⟩

/-! ## Claim C7 — save-time shape enforcement -/

/-- C7: saving a generated newsletter succeeds exactly when the three
fixed-length array fields (`suggestedTitles`, `suggestedSubjectLines`,
`topAnnouncements`) each have exactly 5 elements, and then persists the
value unchanged (never truncated or padded); any length violation is
rejected with a non-empty validation error before anything reaches the
store. -/
theorem claim_C7_save_shape_enforcement :
    ∀ (store : List NewsletterInput) (n : NewsletterInput),
      (n.suggestedTitles.length = 5 ∧ n.suggestedSubjectLines.length = 5 ∧
          n.topAnnouncements.length = 5 →
        saveGeneratedNewsletter store n = .ok (store ++ [n])) ∧
      (¬(n.suggestedTitles.length = 5 ∧ n.suggestedSubjectLines.length = 5 ∧
          n.topAnnouncements.length = 5) →
        ∃ issues, issues ≠ [] ∧ saveGeneratedNewsletter store n = .error issues) := by
  intro store n
  constructor
  · rintro ⟨h1, h2, h3⟩
    simp [saveGeneratedNewsletter, NewsletterSchema.safeParse, newsletterIssues, h1, h2, h3]
  · intro h
    have hne : newsletterIssues n ≠ [] := by
      by_cases h1 : n.suggestedTitles.length = 5 <;>
        by_cases h2 : n.suggestedSubjectLines.length = 5 <;>
          by_cases h3 : n.topAnnouncements.length = 5 <;>
            first
              | (simp [newsletterIssues, h1, h2, h3]; done)
              | exact absurd ⟨h1, h2, h3⟩ h
    refine ⟨newsletterIssues n, hne, ?_⟩
    rcases hI : newsletterIssues n with _ | ⟨i, is⟩
    · exact absurd hI hne
    · simp [saveGeneratedNewsletter, NewsletterSchema.safeParse, hI]

/-- A shape-valid generated newsletter. -/
def goodNewsletter : NewsletterInput :=
  { suggestedTitles := ["t1", "t2", "t3", "t4", "t5"]
    suggestedSubjectLines := ["s1", "s2", "s3", "s4", "s5"]
    body := "body"
    topAnnouncements := ["a1", "a2", "a3", "a4", "a5"]
    additionalInfo := none }

/-- The same newsletter with `suggestedTitles` of length 4. -/
def badNewsletter : NewsletterInput :=
  { goodNewsletter with suggestedTitles := ["t1", "t2", "t3", "t4"] }

/-- C7 instantiated: the length-5 newsletter saves as is; the length-4 one
is rejected with a validation error. -/
theorem claim_C7_witness :
    saveGeneratedNewsletter [] goodNewsletter = .ok [goodNewsletter] ∧
    (∃ issues, issues ≠ [] ∧ saveGeneratedNewsletter [] badNewsletter = .error issues) :=
  ⟨(claim_C7_save_shape_enforcement [] goodNewsletter).1 (by decide),
   (claim_C7_save_shape_enforcement [] badNewsletter).2 (by decide)⟩

/-! ## Claim C9 — concurrent set-add under interleaving -/

/-- `$push` on a singleton store whose article has the pushed guid. -/
theorem pushSourceFeed_single (x : RssArticle) (g f : String) (h : g = x.guid) :
    pushSourceFeed [x] g f = [{ x with sourceFeedIds := x.sourceFeedIds ++ [f] }] := by
  subst h
  simp [pushSourceFeed]

/-- Membership, multiplicity and duplicate-freedom of a list extended by two
fresh, distinct elements. -/
theorem mem_count_nodup_append_two (src : List String) (x y : String)
    (hx : x ∉ src) (hy : y ∉ src) (hxy : x ≠ y) :
    x ∈ src ++ [x, y] ∧ y ∈ src ++ [x, y] ∧
    (src ++ [x, y]).count x = 1 ∧ (src ++ [x, y]).count y = 1 ∧
    (src.Nodup → (src ++ [x, y]).Nodup) := by
  refine ⟨by simp, by simp, ?_, ?_, ?_⟩
  · rw [List.count_append, List.count_eq_zero_of_not_mem hx]
    simp [List.count_cons, hxy]
  · rw [List.count_append, List.count_eq_zero_of_not_mem hy]
    have hyx : y ≠ x := fun hh => hxy hh.symm
    simp [List.count_cons, hyx]
  · intro hnd
    rw [List.nodup_append]
    refine ⟨hnd, by simp [hxy], ?_⟩
    intro t ht htmem
    simp only [List.mem_cons, List.mem_singleton, List.not_mem_nil, or_false] at htmem
    rcases htmem with rfl | rfl
    · exact hx ht
    · exact hy ht

/-- C9: two concurrent `createRssArticle` calls racing to add different,
not-yet-recorded feed ids to the same existing article, interleaved in any
of the possible orders of their atomic store interactions, leave the store
with that single article extended by both feed ids in some order: neither
addition is lost, each added feed id occurs exactly once, and no duplicate
is introduced into `sourceFeedIds`. -/
theorem claim_C9_atomic_concurrent_set_add
    (a : RssArticle) (dB dC : ArticleCreateData) (sched : List Bool)
    (hgB : dB.guid = a.guid) (hgC : dC.guid = a.guid)
    (hB : dB.feedId ∉ a.sourceFeedIds) (hC : dC.feedId ∉ a.sourceFeedIds)
    (hne : dB.feedId ≠ dC.feedId)
    (hsched : sched ∈ twoCallSchedules) :
    ∃ l : List String,
      (runSchedule [a] { data := dB, phase := .start } { data := dC, phase := .start }
          sched).1 = [{ a with sourceFeedIds := l }] ∧
      (l = a.sourceFeedIds ++ [dB.feedId, dC.feedId] ∨
        l = a.sourceFeedIds ++ [dC.feedId, dB.feedId]) ∧
      dB.feedId ∈ l ∧ dC.feedId ∈ l ∧
      l.count dB.feedId = 1 ∧ l.count dC.feedId = 1 ∧
      (a.sourceFeedIds.Nodup → l.Nodup) := by
  have hCB : dC.feedId ≠ dB.feedId := fun hh => hne hh.symm
  have hfB : findByGuid [a] dB.guid = some a := by
    rw [findByGuid_singleton, hgB]
    simp
  have hfC : findByGuid [a] dC.guid = some a := by
    rw [findByGuid_singleton, hgC]
    simp
  have hfCafterB :
      findByGuid [{ a with sourceFeedIds := a.sourceFeedIds ++ [dB.feedId] }] dC.guid
        = some { a with sourceFeedIds := a.sourceFeedIds ++ [dB.feedId] } := by
    rw [findByGuid_singleton, hgC]
    simp
  have hfBafterC :
      findByGuid [{ a with sourceFeedIds := a.sourceFeedIds ++ [dC.feedId] }] dB.guid
        = some { a with sourceFeedIds := a.sourceFeedIds ++ [dC.feedId] } := by
    rw [findByGuid_singleton, hgB]
    simp
  have hpB : pushSourceFeed [a] dB.guid dB.feedId
      = [{ a with sourceFeedIds := a.sourceFeedIds ++ [dB.feedId] }] :=
    pushSourceFeed_single a dB.guid dB.feedId hgB
  have hpC : pushSourceFeed [a] dC.guid dC.feedId
      = [{ a with sourceFeedIds := a.sourceFeedIds ++ [dC.feedId] }] :=
    pushSourceFeed_single a dC.guid dC.feedId hgC
  have hpCafterB :
      pushSourceFeed [{ a with sourceFeedIds := a.sourceFeedIds ++ [dB.feedId] }]
          dC.guid dC.feedId
        = [{ a with sourceFeedIds := (a.sourceFeedIds ++ [dB.feedId]) ++ [dC.feedId] }] :=
    pushSourceFeed_single _ dC.guid dC.feedId hgC
  have hpBafterC :
      pushSourceFeed [{ a with sourceFeedIds := a.sourceFeedIds ++ [dC.feedId] }]
          dB.guid dB.feedId
        = [{ a with sourceFeedIds := (a.sourceFeedIds ++ [dC.feedId]) ++ [dB.feedId] }] :=
    pushSourceFeed_single _ dB.guid dB.feedId hgB
  have hmCafterB : dC.feedId ∉ a.sourceFeedIds ++ [dB.feedId] := by
    simp [hC, hCB]
  have hmBafterC : dB.feedId ∉ a.sourceFeedIds ++ [dC.feedId] := by
    simp [hB, hne]
  obtain ⟨mB, mC, cB, cC, nd⟩ :=
    mem_count_nodup_append_two a.sourceFeedIds dB.feedId dC.feedId hB hC hne
  obtain ⟨mC', mB', cC', cB', nd'⟩ :=
    mem_count_nodup_append_two a.sourceFeedIds dC.feedId dB.feedId hC hB hCB
  simp only [twoCallSchedules, List.mem_cons, List.mem_singleton, List.not_mem_nil,
    or_false] at hsched
  rcases hsched with rfl | rfl | rfl | rfl | rfl | rfl
  · refine ⟨a.sourceFeedIds ++ [dB.feedId, dC.feedId], ?_, Or.inl rfl, mB, mC, cB, cC, nd⟩
    simp [runSchedule, procStep, hfB, hpB, hfCafterB, hpCafterB, hB, hmCafterB]
  · refine ⟨a.sourceFeedIds ++ [dB.feedId, dC.feedId], ?_, Or.inl rfl, mB, mC, cB, cC, nd⟩
    simp [runSchedule, procStep, hfB, hfC, hpB, hpCafterB, hB, hC]
  · refine ⟨a.sourceFeedIds ++ [dC.feedId, dB.feedId], ?_, Or.inr rfl, mB', mC', cB', cC',
      nd'⟩
    simp [runSchedule, procStep, hfB, hfC, hpC, hpBafterC, hB, hC]
  · refine ⟨a.sourceFeedIds ++ [dB.feedId, dC.feedId], ?_, Or.inl rfl, mB, mC, cB, cC, nd⟩
    simp [runSchedule, procStep, hfB, hfC, hpB, hpCafterB, hB, hC]
  · refine ⟨a.sourceFeedIds ++ [dC.feedId, dB.feedId], ?_, Or.inr rfl, mB', mC', cB', cC',
      nd'⟩
    simp [runSchedule, procStep, hfB, hfC, hpC, hpBafterC, hB, hC]
  · refine ⟨a.sourceFeedIds ++ [dC.feedId, dB.feedId], ?_, Or.inr rfl, mB', mC', cB', cC',
      nd'⟩
    simp [runSchedule, procStep, hfC, hpC, hfBafterC, hpBafterC, hC, hmBafterC]

/-- A third candidate observing the same guid through yet another feed,
used to witness the concurrent merge. -/
def sampleCand3 : ArticleCreateData := { sampleCand2 with feedId := "feedC" }

/-- C9 instantiated: the stored article `newArticle sampleCand1` (sources
`["feedA"]`) with two racing calls adding `"feedB"` and `"feedC"` under the
alternating schedule. -/
theorem claim_C9_witness :
    sampleCand2.guid = (newArticle sampleCand1).guid ∧
    sampleCand3.guid = (newArticle sampleCand1).guid ∧
    sampleCand2.feedId ∉ (newArticle sampleCand1).sourceFeedIds ∧
    sampleCand3.feedId ∉ (newArticle sampleCand1).sourceFeedIds ∧
    sampleCand2.feedId ≠ sampleCand3.feedId ∧
    [true, false, true, false] ∈ twoCallSchedules ∧
    ∃ l : List String,
      (runSchedule [newArticle sampleCand1] { data := sampleCand2, phase := .start }
          { data := sampleCand3, phase := .start } [true, false, true, false]).1
        = [{ newArticle sampleCand1 with sourceFeedIds := l }] ∧
      (l = (newArticle sampleCand1).sourceFeedIds ++ [sampleCand2.feedId, sampleCand3.feedId] ∨
        l = (newArticle sampleCand1).sourceFeedIds
            ++ [sampleCand3.feedId, sampleCand2.feedId]) ∧
      sampleCand2.feedId ∈ l ∧ sampleCand3.feedId ∈ l ∧
      l.count sampleCand2.feedId = 1 ∧ l.count sampleCand3.feedId = 1 ∧
      ((newArticle sampleCand1).sourceFeedIds.Nodup → l.Nodup) := by
  refine ⟨rfl, rfl, by decide, by decide, by decide, by decide, ?_⟩
  exact claim_C9_atomic_concurrent_set_add (newArticle sampleCand1) sampleCand2 sampleCand3
    [true, false, true, false] rfl rfl (by decide) (by decide) (by decide) (by decide)

/-! ## Concrete instantiations of the remaining universal claims -/

/-- C6 (amended) instantiated on a plain string author. -/
theorem claim_C6_witness :
    getAuthorString (JsValue.str "Jane Roe") = authorContract (JsValue.str "Jane Roe") :=
  claim_C6_author_normalization_amended (JsValue.str "Jane Roe")

/-- A store behaviour for witnessing the bulk accounting: candidates with
guid `"dup"` hit a unique-constraint race (P2002), candidates with guid
`"bad"` hit an infrastructure failure, everything else succeeds
sequentially. -/
def sampleAttempt (st : List RssArticle) (d : ArticleCreateData) :
    List RssArticle × Option DbError :=
  if d.guid = "dup" then (st, some DbError.p2002)
  else if d.guid = "bad" then (st, some (DbError.other "connection reset"))
  else ((createRssArticle st d).1, none)

/-- A batch with one racing duplicate, one failing candidate and one normal
candidate. -/
def sampleBatch : List ArticleCreateData :=
  [{ sampleCand1 with guid := "dup" }, { sampleCand1 with guid := "bad" }, sampleCand1]

/-- C4 instantiated on the mixed batch under the failing behaviour. -/
theorem claim_C4_witness :
    (bulkCreateRssArticles sampleAttempt [] sampleBatch).result.created
      + (bulkCreateRssArticles sampleAttempt [] sampleBatch).result.skipped
      + (bulkCreateRssArticles sampleAttempt [] sampleBatch).result.errors
      = sampleBatch.length :=
  claim_C4_batch_accounting sampleAttempt [] sampleBatch

/-- C5 instantiated on the mixed batch under the failing behaviour. -/
theorem claim_C5_witness :
    (bulkOutcomes sampleAttempt [] sampleBatch).length = sampleBatch.length ∧
    (bulkCreateRssArticles sampleAttempt [] sampleBatch).result.skipped
      = (bulkOutcomes sampleAttempt [] sampleBatch).countP
          (fun e => decide (e = some DbError.p2002)) ∧
    (bulkCreateRssArticles sampleAttempt [] sampleBatch).result.errors
      = (bulkOutcomes sampleAttempt [] sampleBatch).countP
          (fun e => match e with | some (DbError.other _) => true | _ => false) ∧
    (bulkCreateRssArticles sampleAttempt [] sampleBatch).loggedGuids
      = (sampleBatch.zip (bulkOutcomes sampleAttempt [] sampleBatch)).filterMap
          (fun p => match p.2 with | some (DbError.other _) => some p.1.guid | _ => none) :=
  claim_C5_batch_failure_classification sampleAttempt [] sampleBatch

/-- C10 instantiated: ingesting the same candidate twice in one batch under
the sequential behaviour reports both as `created`, none as `skipped`. -/
theorem claim_C10_witness :
    (bulkCreateRssArticles pureAttempt [] [sampleCand1, sampleCand1]).result
      = { created := 2, skipped := 0, errors := 0 } :=
  claim_C10_duplicates_count_as_created.1 [] [sampleCand1, sampleCand1]

end NewsletterGen
